import Mathlib

/-!
Shallow embedding of the COVID-19 single-country analysis script
(src/sumail_project.py) and proofs about its metrics pipeline.

The script loads a CSV table, keeps the rows whose location is
"Afghanistan", turns the date column into the index (WITHOUT sorting),
zero-fills the new_cases / new_deaths columns, prints basic statistics,
aggregates monthly via resample('M'), computes a case-fatality-rate
column and two 7-day rolling means, and writes a textual report both to
the console and to covid_analysis_results.txt.

Modelling conventions:
* a numeric CSV cell is `Option ℚ` — `none` is pandas NaN (empty cell),
  `some q` a finite value; CSV input never contains infinities;
* a value produced by float arithmetic (the fatality-rate division) is
  `FVal`, which distinguishes NaN, +inf, -inf and finite values, with
  IEEE-754 rules for division by zero as numpy/pandas implement them;
* machine floats are modelled by exact rationals: rounding error is not
  modelled, the claims under study concern definedness and arithmetic
  identities, not ulp-level accuracy;
* file and console I/O are modelled as the list of emitted lines.
-/

/-- A calendar date as produced by pandas to_datetime: year, month (1-12),
day (1-31). -/
structure Date where
  year : Nat
  month : Nat
  day : Nat
deriving DecidableEq, Repr

/-- Linear serialisation of a date; strictly monotone with respect to
calendar order on valid dates (day < 32), used to compare dates. -/
def Date.serial (d : Date) : Nat :=
  (d.year * 12 + (d.month - 1)) * 32 + d.day

/-- The calendar-month bin of a date (year and month collapsed into one
number), the grouping key used by resample('M'). -/
def Date.monthKey (d : Date) : Nat :=
  d.year * 12 + (d.month - 1)

/-- One row of the loaded table, restricted to the columns the script
reads.  `none` stands for an absent (NaN) cell. -/
structure Row where
  location : String
  date : Date
  new_cases : Option ℚ
  new_deaths : Option ℚ
  total_cases : Option ℚ
  total_deaths : Option ℚ
  new_cases_smoothed : Option ℚ
  stringency_index : Option ℚ
deriving DecidableEq, Repr

/-- Line 10: `afghanistan = df[df['location'] == 'Afghanistan'].copy()` —
row filter on exact, case-sensitive string equality. -/
def filterAfghanistan (df : List Row) : List Row :=
  df.filter (fun r => r.location == "Afghanistan")

/-- Lines 19-20: `fillna(0)` applied to the new_cases and new_deaths
columns only; every other field of the row is untouched. -/
def fillKey (r : Row) : Row :=
  { r with
      new_cases := some (r.new_cases.getD 0)
      new_deaths := some (r.new_deaths.getD 0) }

/-- The working Series (lines 10-20): filter to one country, index by
date, zero-fill the two daily counters.  `set_index` (line 16) keeps the
source row order — the script performs NO sort. -/
def afghanistan (df : List Row) : List Row :=
  (filterAfghanistan df).map fillKey

/-- A float value as produced by pandas column arithmetic: NaN, the two
infinities, or a finite number. -/
inductive FVal where
  | nan
  | inf
  | neginf
  | val (q : ℚ)
deriving DecidableEq, Repr

/-- Elementwise float division of two (possibly absent) cells, with the
numpy semantics used by pandas Series division: NaN operands propagate,
x/0 is +inf for x > 0, -inf for x < 0, and NaN for x = 0. -/
def fdiv (a b : Option ℚ) : FVal :=
  match a, b with
  | none, _ => FVal.nan
  | _, none => FVal.nan
  | some x, some y =>
      if y = 0 then
        if 0 < x then FVal.inf
        else if x < 0 then FVal.neginf
        else FVal.nan
      else FVal.val (x / y)

/-- Multiplication of a float value by the positive constant 100. -/
def FVal.mul100 : FVal → FVal
  | FVal.nan => FVal.nan
  | FVal.inf => FVal.inf
  | FVal.neginf => FVal.neginf
  | FVal.val q => FVal.val (q * 100)

/-- Line 90: `(afghanistan['total_deaths'] / afghanistan['total_cases']) * 100`,
per row. -/
def case_fatality_rate (r : Row) : FVal :=
  (fdiv r.total_deaths r.total_cases).mul100

/-- Line 90 as a column: the case_fatality_rate column appended to the
Series. -/
def cfrColumn (s : List Row) : List FVal :=
  s.map case_fatality_rate

/-- pandas Series.max(): the maximum over the present (non-NaN) values,
absent when no value is present. -/
def colMax (l : List (Option ℚ)) : Option ℚ :=
  (l.filterMap id).max?

/-- pandas Series.idxmax(): the index label (here the date) of the FIRST
row, in positional order, whose value equals the column maximum. -/
def idxmax (f : Row → Option ℚ) (s : List Row) : Option Date :=
  match colMax (s.map f) with
  | none => none
  | some m => (s.find? (fun r => decide (f r = some m))).map Row.date

/-- Outcome channel of the summary-statistics step.  `indexOutOfRange`
is the uncaught pandas IndexError raised by `afghanistan.index[0]` on an
empty frame; `emptySeriesReport` stands for a deliberate detect-and-report
path for the empty Series.  The script contains no code producing the
latter — the constructor exists so the two outcomes are distinguishable
in statements about the error behaviour. -/
inductive RunError where
  | indexOutOfRange
  | emptySeriesReport
deriving DecidableEq, Repr

/-- The values computed by the basic-statistics block (lines 25-29) plus
the final fatality-rate value used by the report file (line 149). -/
structure Stats where
  firstDate : Date
  totalCases : Option ℚ
  totalDeaths : Option ℚ
  peakCases : Option ℚ
  peakCasesDate : Option Date
  peakDeaths : Option ℚ
  peakDeathsDate : Option Date
  cfrLast : FVal
deriving DecidableEq, Repr

/-- Lines 25-29 and 149: the summary statistics of the Series.
`afghanistan.index[0]` is a positional access: on an empty Series it
raises IndexError — there is no explicit empty-Series check anywhere in
the script, so the only possible outcome on an empty Series is the
uncaught index error. -/
def basicStatisticsRun (s : List Row) : Except RunError Stats :=
  match s.head? with
  | none => Except.error RunError.indexOutOfRange
  | some r0 =>
      Except.ok
        { firstDate := r0.date
          totalCases := Option.bind s.getLast? Row.total_cases
          totalDeaths := Option.bind s.getLast? Row.total_deaths
          peakCases := colMax (s.map Row.new_cases)
          peakCasesDate := idxmax Row.new_cases s
          peakDeaths := colMax (s.map Row.new_deaths)
          peakDeathsDate := idxmax Row.new_deaths s
          cfrLast := (s.getLast?.map case_fatality_rate).getD FVal.nan }

/-- One output row of the monthly aggregation (an entry of `monthly`). -/
structure MonthRow where
  mkey : Nat
  new_cases : ℚ
  new_deaths : ℚ
  total_cases : Option ℚ
  total_deaths : Option ℚ
deriving DecidableEq, Repr

/-- pandas skip-NA 'sum' aggregation: absent cells contribute nothing and
an empty group sums to 0. -/
def sumOpt (l : List (Option ℚ)) : ℚ :=
  (l.filterMap id).sum

/-- pandas 'last' aggregation: the last present (non-NaN) value of the
group in positional order, absent when the group has no present value. -/
def lastOpt (l : List (Option ℚ)) : Option ℚ :=
  (l.filterMap id).getLast?

/-- The aggregation dictionary of lines 33-38 applied to one month bin:
sum of new_cases, sum of new_deaths, 'last' of total_cases and of
total_deaths. -/
def aggMonth (k : Nat) (g : List Row) : MonthRow :=
  { mkey := k
    new_cases := sumOpt (g.map Row.new_cases)
    new_deaths := sumOpt (g.map Row.new_deaths)
    total_cases := lastOpt (g.map Row.total_cases)
    total_deaths := lastOpt (g.map Row.total_deaths) }

/-- The month bin of every row of the Series, in order. -/
def monthKeys (s : List Row) : List Nat :=
  s.map (fun r => r.date.monthKey)

/-- Lines 33-38: `monthly = afghanistan.resample('M').agg({...})`.
resample('M') bins the DatetimeIndex into consecutive calendar months
covering the whole span from the earliest to the latest index value —
including months into which no row falls, which receive the aggregate of
an empty group (sums 0, 'last' absent) — and emits the bins in
chronological order. -/
def monthly (s : List Row) : List MonthRow :=
  match (monthKeys s).min?, (monthKeys s).max? with
  | some lo, some hi =>
      (List.range' lo (hi - lo + 1)).map
        (fun k => aggMonth k (s.filter (fun r => decide (r.date.monthKey = k))))
  | _, _ => []

/-- Whether year y is a Gregorian leap year. -/
def leapYear (y : Nat) : Bool :=
  (y % 4 = 0 && decide (y % 100 ≠ 0)) || y % 400 = 0

/-- Number of days of month m (1-12) of year y. -/
def daysInMonth (y m : Nat) : Nat :=
  if m = 2 then (if leapYear y then 29 else 28)
  else if m = 4 ∨ m = 6 ∨ m = 9 ∨ m = 11 then 30
  else 31

/-- The month-end date that resample('M') uses as the label of month
bin k. -/
def monthEndDate (k : Nat) : Date :=
  { year := k / 12, month := k % 12 + 1, day := daysInMonth (k / 12) (k % 12 + 1) }

/-- A monthly-aggregate row viewed again as a dated row, as it stands in
the `monthly` frame (label = month-end date); used to state idempotence
of re-aggregation. -/
def monthRowToRow (m : MonthRow) : Row :=
  { location := "Afghanistan"
    date := monthEndDate m.mkey
    new_cases := some m.new_cases
    new_deaths := some m.new_deaths
    total_cases := m.total_cases
    total_deaths := m.total_deaths
    new_cases_smoothed := none
    stringency_index := none }

/-- Lines 124-125: `rolling(window=7).mean()` with the default
min_periods = window.  At position i the window is the 7 consecutive
positions i-6..i; with fewer than 7 rows (i < 6) or fewer than 7 present
values in the window the result is NaN, otherwise the arithmetic mean of
the window. -/
def rollingMean7 (l : List (Option ℚ)) : List (Option ℚ) :=
  (List.range l.length).map (fun i =>
    if i < 6 then none
    else
      let w := (l.drop (i - 6)).take 7
      if w.all Option.isSome then some ((w.filterMap id).sum / 7) else none)

/-- Line 124: the cases_7day_avg column. -/
def cases_7day_avg (s : List Row) : List (Option ℚ) :=
  rollingMean7 (s.map Row.new_cases)

/-- Line 125: the deaths_7day_avg column. -/
def deaths_7day_avg (s : List Row) : List (Option ℚ) :=
  rollingMean7 (s.map Row.new_deaths)

/-- The minimum date (by serial) present in a list of rows; what the
"first date" summary statistic is supposed to report. -/
def minDateSerial (s : List Row) : Option Nat :=
  (s.map (fun r => r.date.serial)).min?

/-- Decimal digits of n with a comma inserted every three digits,
working over the reversed digit list. -/
def commaRev : List Char → Nat → List Char
  | [], _ => []
  | c :: cs, k =>
      if k ≠ 0 ∧ k % 3 = 0 then ',' :: c :: commaRev cs (k + 1)
      else c :: commaRev cs (k + 1)

/-- Python's thousands-separator rendering of a natural number, the
integer part of an f-string `:,` conversion. -/
def groupNat (n : Nat) : String :=
  String.mk ((commaRev (Nat.repr n).data.reverse 0).reverse)

/-- Decimal expansion of a fractional remainder in [0,1), up to `fuel`
digits, stopping at 0. -/
def fracDigits (fuel : Nat) (q : ℚ) : String :=
  match fuel with
  | 0 => ""
  | Nat.succ f =>
      if q = 0 then ""
      else
        let d : Nat := (Int.floor (q * 10)).toNat
        Nat.repr d ++ fracDigits f (q * 10 - (d : ℚ))

/-- Python f-string `:,` conversion of a finite float value: optional
sign, grouped integer part, decimal point, fractional digits (".0" for an
integral value, as Python prints floats). -/
def fmtFloat (q : ℚ) : String :=
  let sign := if q < 0 then "-" else ""
  let n := q.num.natAbs
  let ip := n / q.den
  sign ++ groupNat ip ++ "." ++
    (if q.den = 1 then "0" else fracDigits 17 (|q| - (ip : ℚ)))

/-- `:,` conversion of a possibly absent cell; pandas NaN prints as
"nan". -/
def fmtCell : Option ℚ → String
  | none => "nan"
  | some q => fmtFloat q

/-- Two-digit zero padding. -/
def pad2 (n : Nat) : String :=
  if n < 10 then "0" ++ Nat.repr n else Nat.repr n

/-- Four-digit zero padding. -/
def pad4 (n : Nat) : String :=
  if n < 10 then "000" ++ Nat.repr n
  else if n < 100 then "00" ++ Nat.repr n
  else if n < 1000 then "0" ++ Nat.repr n
  else Nat.repr n

/-- strftime('%Y-%m-%d'). -/
def fmtDate (d : Date) : String :=
  pad4 d.year ++ "-" ++ pad2 d.month ++ "-" ++ pad2 d.day

/-- Date formatting of a possibly absent timestamp (pandas prints NaT). -/
def fmtDateOpt : Option Date → String
  | none => "NaT"
  | some d => fmtDate d

/-- Python `:.2f` conversion of a float value (two fixed decimals; NaN
and infinities print as nan / inf / -inf).  Exact .005 ties are rounded
half-up here where Python rounds the nearest double; the claims under
study do not depend on tie direction. -/
def fmtFix2 : FVal → String
  | FVal.nan => "nan"
  | FVal.inf => "inf"
  | FVal.neginf => "-inf"
  | FVal.val q =>
      let c : ℤ := round (q * 100)
      let sign := if c < 0 then "-" else ""
      let n := c.natAbs
      sign ++ Nat.repr (n / 100) ++ "." ++ pad2 (n % 100)

/-- The 50-character separator line `"="*50` of lines 24 and 143. -/
def sepLine : String :=
  String.mk (List.replicate 50 '=')

/-- Lines 23-29: the lines printed to the console by the basic-statistics
block (the trailing blank print of line 30 is not an item of the
report). -/
def consoleReport (st : Stats) : List String :=
  [ "COVID-19 in Afghanistan - Basic Statistics"
  , sepLine
  , "First case reported on: " ++ fmtDate st.firstDate
  , "Total cases: " ++ fmtCell st.totalCases
  , "Total deaths: " ++ fmtCell st.totalDeaths
  , "Highest daily cases: " ++ fmtCell st.peakCases ++ " on " ++ fmtDateOpt st.peakCasesDate
  , "Highest daily deaths: " ++ fmtCell st.peakDeaths ++ " on " ++ fmtDateOpt st.peakDeathsDate ]

/-- Lines 141-149: the lines written to covid_analysis_results.txt. -/
def fileReport (st : Stats) : List String :=
  [ "COVID-19 in Afghanistan - Analysis Results"
  , sepLine
  , "First case reported on: " ++ fmtDate st.firstDate
  , "Total cases: " ++ fmtCell st.totalCases
  , "Total deaths: " ++ fmtCell st.totalDeaths
  , "Highest daily cases: " ++ fmtCell st.peakCases ++ " on " ++ fmtDateOpt st.peakCasesDate
  , "Highest daily deaths: " ++ fmtCell st.peakDeaths ++ " on " ++ fmtDateOpt st.peakDeathsDate
  , "Current case fatality rate: " ++ fmtFix2 st.cfrLast ++ "%" ]

/-- A default Afghanistan row used to build concrete test tables. -/
def baseRow : Row :=
  { location := "Afghanistan"
    date := { year := 2020, month := 1, day := 1 }
    new_cases := some 0
    new_deaths := some 0
    total_cases := none
    total_deaths := none
    new_cases_smoothed := none
    stringency_index := none }

deriving instance DecidableEq for Except

/-- Helper: folding `min` over a list of naturals that are all at least
`a` returns `a`. -/
theorem foldl_min_eq {a : Nat} {l : List Nat} (h : ∀ x ∈ l, a ≤ x) :
    l.foldl min a = a := by
  induction l generalizing a with
  | nil => rfl
  | cons x xs ih =>
      have hax : min a x = a := min_eq_left (h x (by simp))
      rw [List.foldl_cons, hax]
      exact ih (fun y hy => h y (by simp [hy]))

/-- Helper: the minimum of a nonempty list whose head is a lower bound is
the head. -/
theorem min?_cons_of_le {a : Nat} {l : List Nat} (h : ∀ x ∈ l, a ≤ x) :
    (a :: l).min? = some a := by
  have : (a :: l).min? = some (l.foldl min a) := rfl
  rw [this, foldl_min_eq h]

/-- Unsorted input table used to refute claim C1: the Afghanistan rows
arrive with dates out of order, as `set_index` performs no sort. -/
def tblC1 : List Row :=
  [ { baseRow with date := { year := 2020, month := 3, day := 1 } }
  , { baseRow with date := { year := 2020, month := 1, day := 1 } } ]

/-- Claim C1, counterexample: on an input table whose Afghanistan rows are
not pre-sorted by date, the "first date" summary statistic
(`afghanistan.index[0]`) is NOT the minimum date of the Series — the
pipeline never sorts, contradicting the claim. -/
theorem firstDate_not_min_on_unsorted_input :
    ((basicStatisticsRun (afghanistan tblC1)).toOption.map
        (fun st => st.firstDate.serial))
      ≠ minDateSerial (afghanistan tblC1) := by decide

/-- Claim C1 (amended): the reported "first date" is the date of the first
row of the filtered table in source order; it equals the minimum date of
the Series exactly when the country's rows arrive sorted ascending by
date, which the pipeline does not itself establish. -/
theorem firstDate_eq_min_of_sorted (df : List Row) (st : Stats)
    (hs : (afghanistan df).Pairwise (fun a b => a.date.serial ≤ b.date.serial))
    (h : basicStatisticsRun (afghanistan df) = Except.ok st) :
    minDateSerial (afghanistan df) = some st.firstDate.serial := by
  cases e : afghanistan df with
  | nil =>
      rw [e] at h
      exact absurd h (by simp [basicStatisticsRun])
  | cons r0 t =>
      rw [e] at h hs
      have hfd : st.firstDate = r0.date := by
        have : basicStatisticsRun (r0 :: t) = Except.ok st := h
        simp only [basicStatisticsRun, List.head?] at this
        cases this
        rfl
      have hb : ∀ x ∈ t.map (fun r => r.date.serial), r0.date.serial ≤ x := by
        intro x hx
        obtain ⟨r, hr, rfl⟩ := List.mem_map.mp hx
        exact (List.pairwise_cons.mp hs).1 r hr
      have hmin : minDateSerial (r0 :: t) = some r0.date.serial := by
        simp only [minDateSerial, List.map_cons]
        exact min?_cons_of_le hb
      rw [hfd]
      exact hmin

/-- Sorted two-row table used to witness the amended claim C1. -/
def tblC1s : List Row :=
  [ { baseRow with date := { year := 2020, month := 1, day := 1 } }
  , { baseRow with date := { year := 2020, month := 3, day := 1 } } ]

/-- The statistics record the pipeline computes on `tblC1s`. -/
def stC1s : Stats :=
  { firstDate := { year := 2020, month := 1, day := 1 }
    totalCases := none
    totalDeaths := none
    peakCases := some 0
    peakCasesDate := some { year := 2020, month := 1, day := 1 }
    peakDeaths := some 0
    peakDeathsDate := some { year := 2020, month := 1, day := 1 }
    cfrLast := FVal.nan }

/-- Claim C1 (amended), witness: on a concrete pre-sorted table the
reported first date is the minimum date. -/
theorem firstDate_eq_min_of_sorted_witness :
    minDateSerial (afghanistan tblC1s) = some stC1s.firstDate.serial :=
  firstDate_eq_min_of_sorted tblC1s stC1s (by decide) (by decide)

/-- Input table with rows, none of which match the target country. -/
def tblC3 : List Row :=
  [ { baseRow with location := "France" } ]

/-- Claim C3, counterexample: when no rows match the target country, the
summary-statistics step terminates with the uncaught index-out-of-range
failure of `afghanistan.index[0]`; no explicit empty-Series detection or
report exists in the script. -/
theorem empty_series_index_error :
    basicStatisticsRun (afghanistan tblC3)
      = Except.error RunError.indexOutOfRange := by decide

/-- Claim C3 (amended): whenever the country filter selects no rows, the
summary-statistics computation surfaces the index-out-of-range failure,
and never the explicit empty-Series report the spec calls for. -/
theorem no_match_gives_index_error (df : List Row)
    (h : filterAfghanistan df = []) :
    basicStatisticsRun (afghanistan df) = Except.error RunError.indexOutOfRange ∧
    basicStatisticsRun (afghanistan df) ≠ Except.error RunError.emptySeriesReport := by
  have he : afghanistan df = [] := by simp [afghanistan, h]
  rw [he]
  exact ⟨rfl, by simp [basicStatisticsRun]⟩

/-- A second no-match table for the witness of the amended claim C3. -/
def tblC3w : List Row :=
  [ { baseRow with location := "Pakistan" }
  , { baseRow with location := "france" } ]

/-- Claim C3 (amended), witness: concrete table with no matching rows. -/
theorem no_match_gives_index_error_witness :
    basicStatisticsRun (afghanistan tblC3w) = Except.error RunError.indexOutOfRange ∧
    basicStatisticsRun (afghanistan tblC3w) ≠ Except.error RunError.emptySeriesReport :=
  no_match_gives_index_error tblC3w (by decide)

/-- Concrete statistics record used to refute claim C4. -/
def stC4 : Stats :=
  { firstDate := { year := 2020, month := 2, day := 24 }
    totalCases := some 180347
    totalDeaths := some 7896
    peakCases := some 1485
    peakCasesDate := some { year := 2020, month := 6, day := 4 }
    peakDeaths := some 60
    peakDeathsDate := some { year := 2020, month := 6, day := 23 }
    cfrLast := FVal.val 4 }

/-- Claim C4, counterexample: the console block and the text file are not
identical — the headers differ ("Basic Statistics" vs "Analysis Results")
and the fatality-rate line is written only to the file. -/
theorem reports_differ : consoleReport stC4 ≠ fileReport stC4 := by
  intro h
  have := congrArg List.length h
  simp [consoleReport, fileReport] at this

/-- Claim C4 (amended): for every statistics record the five data lines
(first-case date, cumulative totals, the two peaks) agree between the
console block and the file, with identical numeric formatting, but the
two headers differ and the current case-fatality-rate line is emitted
only to the file, as its last line. -/
theorem reports_shared_lines_agree (st : Stats) :
    (consoleReport st).tail = ((fileReport st).tail).dropLast ∧
    (consoleReport st).head? ≠ (fileReport st).head? ∧
    (fileReport st).getLast?
      = some ("Current case fatality rate: " ++ fmtFix2 st.cfrLast ++ "%") := by
  refine ⟨rfl, ?_, rfl⟩
  simp only [consoleReport, fileReport, List.head?]
  decide

/-- Row exhibiting the infinity case of the fatality-rate division. -/
def rowC5 : Row :=
  { baseRow with total_cases := some 0, total_deaths := some 1 }

/-- Claim C5, counterexample: at a row with cumulative cases 0 and
cumulative deaths 1, float division yields +infinity, not the claimed
NaN marker. -/
theorem cfr_inf_at_zero_cases :
    case_fatality_rate rowC5 = FVal.inf ∧ case_fatality_rate rowC5 ≠ FVal.nan := by
  decide

/-- Claim C5 (amended): the ratio equals (deaths/cases)x100 when both
cells are present and cases is non-zero; when cases is zero the result is
NaN only if deaths is zero or absent, +infinity for positive deaths and
-infinity for negative deaths; an absent operand yields NaN. -/
theorem cfr_amended (r : Row) :
    (r.total_cases = some 0 →
      ((r.total_deaths = some 0 ∨ r.total_deaths = none) →
          case_fatality_rate r = FVal.nan) ∧
      (∀ q : ℚ, r.total_deaths = some q → 0 < q → case_fatality_rate r = FVal.inf) ∧
      (∀ q : ℚ, r.total_deaths = some q → q < 0 → case_fatality_rate r = FVal.neginf)) ∧
    (∀ c d : ℚ, r.total_cases = some c → c ≠ 0 → r.total_deaths = some d →
        case_fatality_rate r = FVal.val (d / c * 100)) ∧
    (r.total_cases = none → case_fatality_rate r = FVal.nan) := by
  refine ⟨?_, ?_, ?_⟩
  · intro hc
    refine ⟨?_, ?_, ?_⟩
    · rintro (hd | hd) <;>
        simp [case_fatality_rate, fdiv, FVal.mul100, hc, hd]
    · intro q hd hq
      simp [case_fatality_rate, fdiv, FVal.mul100, hc, hd, hq, asymm hq]
    · intro q hd hq
      simp [case_fatality_rate, fdiv, FVal.mul100, hc, hd, hq, asymm hq]
  · intro c d hc hc0 hd
    simp [case_fatality_rate, fdiv, FVal.mul100, hc, hd, hc0]
  · intro hc
    cases hd : r.total_deaths <;>
      simp [case_fatality_rate, fdiv, FVal.mul100, hc, hd]

/-- Row with both cumulative cells present, used by the witness of the
amended claim C5 (the spec's own example: 4 deaths per 100 cases). -/
def rowC5w : Row :=
  { baseRow with total_cases := some 100, total_deaths := some 4 }

/-- Claim C5 (amended), witness: cases 100 and deaths 4 give a ratio of
exactly 4. -/
theorem cfr_amended_witness :
    case_fatality_rate rowC5w = FVal.val ((4 : ℚ) / 100 * 100) :=
  (cfr_amended rowC5w).2.1 100 4 rfl (by norm_num) rfl

/-- Claim C8: the zero-fill step replaces absent values by 0 in the
new_cases and new_deaths fields only; every other field of the row is
kept exactly as loaded (absences included), and an absent cumulative
total still propagates to a NaN fatality ratio after the fill. -/
theorem fill_only_key_columns_absent (r : Row) :
    (fillKey r).new_cases = some (r.new_cases.getD 0) ∧
    (fillKey r).new_deaths = some (r.new_deaths.getD 0) ∧
    (fillKey r).total_cases = r.total_cases ∧
    (fillKey r).total_deaths = r.total_deaths ∧
    (fillKey r).new_cases_smoothed = r.new_cases_smoothed ∧
    (fillKey r).stringency_index = r.stringency_index ∧
    (fillKey r).location = r.location ∧
    (fillKey r).date = r.date ∧
    (r.total_cases = none → case_fatality_rate (fillKey r) = FVal.nan) ∧
    (r.total_deaths = none → case_fatality_rate (fillKey r) = FVal.nan) := by
  refine ⟨rfl, rfl, rfl, rfl, rfl, rfl, rfl, rfl, ?_, ?_⟩
  · intro hc
    cases hd : r.total_deaths <;>
      simp [case_fatality_rate, fdiv, FVal.mul100, fillKey, hc, hd]
  · intro hd
    cases hc : r.total_cases <;>
      simp [case_fatality_rate, fdiv, FVal.mul100, fillKey, hc, hd]

/-- Row whose daily counters are absent and whose totals are absent. -/
def rowC8 : Row :=
  { baseRow with new_cases := none, new_deaths := none }

/-- Claim C8, witness: on a row with absent cumulative totals the filled
row still produces a NaN fatality ratio, and the fill yields 0 for the
absent daily counter. -/
theorem fill_only_key_columns_absent_witness :
    (fillKey rowC8).new_cases = some (rowC8.new_cases.getD 0) ∧
    case_fatality_rate (fillKey rowC8) = FVal.nan :=
  ⟨(fill_only_key_columns_absent rowC8).1,
   (fill_only_key_columns_absent rowC8).2.2.2.2.2.2.2.2.1 rfl⟩

/-- Claim C10: the zero-fill changes only absent entries — a present
new-cases or new-deaths value passes through unchanged — and no field
other than new_cases and new_deaths is touched at all. -/
theorem fill_frame_condition (r : Row) :
    (∀ q : ℚ, r.new_cases = some q → (fillKey r).new_cases = some q) ∧
    (∀ q : ℚ, r.new_deaths = some q → (fillKey r).new_deaths = some q) ∧
    (r.new_cases = none → (fillKey r).new_cases = some 0) ∧
    (r.new_deaths = none → (fillKey r).new_deaths = some 0) ∧
    (fillKey r).location = r.location ∧
    (fillKey r).date = r.date ∧
    (fillKey r).total_cases = r.total_cases ∧
    (fillKey r).total_deaths = r.total_deaths ∧
    (fillKey r).new_cases_smoothed = r.new_cases_smoothed ∧
    (fillKey r).stringency_index = r.stringency_index := by
  refine ⟨?_, ?_, ?_, ?_, rfl, rfl, rfl, rfl, rfl, rfl⟩
  · intro q hq; simp [fillKey, hq]
  · intro q hq; simp [fillKey, hq]
  · intro hq; simp [fillKey, hq]
  · intro hq; simp [fillKey, hq]

/-- Row with present daily counters, used by the witness of claim C10. -/
def rowC10 : Row :=
  { baseRow with new_cases := some 5, new_deaths := some 2,
                 total_cases := some 7 }

/-- Claim C10, witness: a present new-cases value is unchanged by the
fill and the untouched total_cases field keeps its value. -/
theorem fill_frame_condition_witness :
    (fillKey rowC10).new_cases = some 5 ∧
    (fillKey rowC10).total_cases = rowC10.total_cases :=
  ⟨(fill_frame_condition rowC10).1 5 rfl,
   (fill_frame_condition rowC10).2.2.2.2.2.2.1⟩

instance : Std.Antisymm (fun a b : ℚ => a ≤ b) :=
  ⟨fun h1 h2 => le_antisymm h1 h2⟩

/-- Helper: a contiguous slice of a list written by absolute positions. -/
theorem drop_take_eq_range_map (l : List ℚ) (a b : Nat) (h : a + b ≤ l.length) :
    (l.drop a).take b = (List.range b).map (fun k => l.getD (a + k) 0) := by
  apply List.ext_getElem
  · simp only [List.length_take, List.length_drop, List.length_map, List.length_range]
    omega
  · intro n h1 h2
    have hn : n < b := by
      simp only [List.length_take, List.length_drop] at h1
      omega
    have hab : a + n < l.length := by omega
    rw [List.getElem_take, List.getElem_drop]
    simp only [List.getElem_map, List.getElem_range]
    rw [List.getD_eq_getElem?_getD, List.getElem?_eq_getElem hab]
    rfl

/-- Helper: a column of present values passes the isSome window test. -/
theorem all_isSome_map_some (u : List ℚ) : (u.map some).all Option.isSome = true := by
  induction u with
  | nil => rfl
  | cons a t ih => simp [ih]

/-- Helper: unwrapping a column of present values. -/
theorem filterMap_id_map_some (u : List ℚ) : (u.map some).filterMap id = u := by
  induction u with
  | nil => rfl
  | cons a t ih => simp [ih]

/-- Helper: position-by-position description of the 7-day rolling mean of
a fully-present column. -/
theorem rollingMean7_at (v : List ℚ) (i : Nat) (hi : i < v.length) :
    (i < 6 → (rollingMean7 (v.map some))[i]? = some none) ∧
    (6 ≤ i → (rollingMean7 (v.map some))[i]? =
        some (some (((List.range 7).map (fun k => v.getD (i - 6 + k) 0)).sum / 7))) := by
  have hlen : (v.map some).length = v.length := by simp
  have hidx : (rollingMean7 (v.map some))[i]? =
      some (if i < 6 then none
        else
          let w := ((v.map some).drop (i - 6)).take 7
          if w.all Option.isSome then some ((w.filterMap id).sum / 7) else none) := by
    simp only [rollingMean7]
    rw [List.getElem?_map, List.getElem?_range (by omega : i < (v.map some).length)]
    rfl
  constructor
  · intro h6
    rw [hidx, if_pos h6]
  · intro h6
    have hw : ((v.map some).drop (i - 6)).take 7
        = ((v.drop (i - 6)).take 7).map some := by
      rw [List.map_take, List.map_drop]
    have hall := all_isSome_map_some ((v.drop (i - 6)).take 7)
    have hfm := filterMap_id_map_some ((v.drop (i - 6)).take 7)
    rw [hidx, if_neg (by omega)]
    simp only [hw, hall, if_pos, hfm]
    rw [drop_take_eq_range_map v (i - 6) 7 (by omega)]

/-- Helper: after the zero-fill, the new_cases column of the Series is a
fully present column. -/
theorem afghanistan_new_cases_some (df : List Row) :
    (afghanistan df).map Row.new_cases
      = ((afghanistan df).map (fun r => r.new_cases.getD 0)).map some := by
  simp only [afghanistan, List.map_map]
  exact List.map_congr_left (fun r _ => rfl)

/-- Helper: after the zero-fill, the new_deaths column of the Series is a
fully present column. -/
theorem afghanistan_new_deaths_some (df : List Row) :
    (afghanistan df).map Row.new_deaths
      = ((afghanistan df).map (fun r => r.new_deaths.getD 0)).map some := by
  simp only [afghanistan, List.map_map]
  exact List.map_congr_left (fun r _ => rfl)

/-- Claim C6: for new cases and new deaths alike, the 7-day rolling
average at 0-indexed position i of the Series is absent for i < 6, and
for i >= 6 equals the arithmetic mean of the column values at positions
i-6 .. i — a trailing window of exactly 7 consecutive observations by
position, with no partial averages. -/
theorem rolling7_positions (df : List Row) (i : Nat)
    (hi : i < (afghanistan df).length) :
    (i < 6 →
      (cases_7day_avg (afghanistan df))[i]? = some none ∧
      (deaths_7day_avg (afghanistan df))[i]? = some none) ∧
    (6 ≤ i →
      (cases_7day_avg (afghanistan df))[i]? =
        some (some (((List.range 7).map (fun k =>
          ((afghanistan df).map (fun r => r.new_cases.getD 0)).getD (i - 6 + k) 0)).sum / 7)) ∧
      (deaths_7day_avg (afghanistan df))[i]? =
        some (some (((List.range 7).map (fun k =>
          ((afghanistan df).map (fun r => r.new_deaths.getD 0)).getD (i - 6 + k) 0)).sum / 7))) := by
  have hc := rollingMean7_at ((afghanistan df).map (fun r => r.new_cases.getD 0)) i
    (by simpa using hi)
  have hd := rollingMean7_at ((afghanistan df).map (fun r => r.new_deaths.getD 0)) i
    (by simpa using hi)
  constructor
  · intro h6
    constructor
    · rw [cases_7day_avg, afghanistan_new_cases_some]
      exact hc.1 h6
    · rw [deaths_7day_avg, afghanistan_new_deaths_some]
      exact hd.1 h6
  · intro h6
    constructor
    · rw [cases_7day_avg, afghanistan_new_cases_some]
      exact hc.2 h6
    · rw [deaths_7day_avg, afghanistan_new_deaths_some]
      exact hd.2 h6

/-- Ten-day series matching the spec's end-to-end rolling-average
example: new_cases 0,0,0,0,0,0,0,5,10,15 with all new_deaths 0. -/
def tblC6 : List Row :=
  [ { baseRow with date := { year := 2021, month := 1, day := 1 }, new_cases := some 0 }
  , { baseRow with date := { year := 2021, month := 1, day := 2 }, new_cases := some 0 }
  , { baseRow with date := { year := 2021, month := 1, day := 3 }, new_cases := some 0 }
  , { baseRow with date := { year := 2021, month := 1, day := 4 }, new_cases := some 0 }
  , { baseRow with date := { year := 2021, month := 1, day := 5 }, new_cases := some 0 }
  , { baseRow with date := { year := 2021, month := 1, day := 6 }, new_cases := some 0 }
  , { baseRow with date := { year := 2021, month := 1, day := 7 }, new_cases := some 0 }
  , { baseRow with date := { year := 2021, month := 1, day := 8 }, new_cases := some 5 }
  , { baseRow with date := { year := 2021, month := 1, day := 9 }, new_cases := some 10 }
  , { baseRow with date := { year := 2021, month := 1, day := 10 }, new_cases := some 15 } ]

/-- Claim C6, witness: on the spec's ten-day example the rolling average
is absent at position 3 and equals 30/7 at the last position. -/
theorem rolling7_positions_witness :
    (cases_7day_avg (afghanistan tblC6))[3]? = some none ∧
    (cases_7day_avg (afghanistan tblC6))[9]? = some (some (30 / 7)) := by
  constructor
  · exact ((rolling7_positions tblC6 3 (by decide)).1 (by omega)).1
  · have h := ((rolling7_positions tblC6 9 (by decide)).2 (by omega)).1
    rw [h]
    have hl : (List.range 7).map (fun k =>
        ((afghanistan tblC6).map (fun r => r.new_cases.getD 0)).getD (9 - 6 + k) 0)
        = [0, 0, 0, 0, 5, 10, 15] := rfl
    rw [hl]
    norm_num

/-- Helper: on a strictly date-sorted list, `find?` returns the match
with the least date. -/
theorem find?_first_le {p : Row → Bool} {s : List Row} {a : Row}
    (hsort : s.Pairwise (fun x y => x.date.serial < y.date.serial))
    (hf : s.find? p = some a) :
    ∀ b ∈ s, p b = true → a.date.serial ≤ b.date.serial := by
  induction s with
  | nil => simp at hf
  | cons x t ih =>
      rw [List.find?_cons] at hf
      cases hpx : p x with
      | true =>
          rw [hpx] at hf
          cases hf
          intro b hb _
          rcases List.mem_cons.mp hb with rfl | hbt
          · exact le_refl _
          · exact le_of_lt ((List.pairwise_cons.mp hsort).1 b hbt)
      | false =>
          rw [hpx] at hf
          intro b hb hpb
          rcases List.mem_cons.mp hb with rfl | hbt
          · rw [hpx] at hpb; cases hpb
          · exact ih (List.pairwise_cons.mp hsort).2 hf b hbt hpb

/-- Helper: full specification of the max / idxmax pair of one column on
a strictly date-sorted list of rows: the max bounds every present value,
is attained at the returned date, and the returned date is the least date
attaining it. -/
theorem idxmax_spec (f : Row → Option ℚ) (s : List Row) (m : ℚ) (d : Date)
    (hsort : s.Pairwise (fun x y => x.date.serial < y.date.serial))
    (hm : colMax (s.map f) = some m)
    (hd : idxmax f s = some d) :
    (∀ r ∈ s, ∀ q : ℚ, f r = some q → q ≤ m) ∧
    (∃ r ∈ s, f r = some m ∧ r.date = d) ∧
    (∀ r ∈ s, f r = some m → d.serial ≤ r.date.serial) := by
  have hmax := (List.max?_eq_some_iff (fun a => le_refl a)
    (fun a b => max_choice a b) (fun _ _ _ => max_le_iff)).mp hm
  have hub : ∀ r ∈ s, ∀ q : ℚ, f r = some q → q ≤ m := by
    intro r hr q hq
    refine hmax.2 q (List.mem_filterMap.mpr ⟨f r, List.mem_map_of_mem f hr, ?_⟩)
    rw [hq]; rfl
  have hfind : ∃ a, s.find? (fun r => decide (f r = some m)) = some a ∧ a.date = d := by
    rw [idxmax, hm] at hd
    replace hd : (s.find? (fun r => decide (f r = some m))).map Row.date = some d := hd
    cases e : s.find? (fun r => decide (f r = some m)) with
    | none => rw [e] at hd; cases hd
    | some a =>
        rw [e] at hd
        exact ⟨a, rfl, by cases hd; rfl⟩
  obtain ⟨a, hfa, had⟩ := hfind
  have hamem : a ∈ s := List.mem_of_find?_eq_some hfa
  have hav : f a = some m := by
    have := List.find?_some hfa
    simpa using this
  refine ⟨hub, ⟨a, hamem, hav, had⟩, ?_⟩
  intro r hr hrm
  rw [← had]
  exact find?_first_le hsort hfa r hr (by simp [hrm])

/-- Claim C7: on a Series sorted strictly ascending by date, the reported
peak daily cases is the maximum of new_cases over the Series and its
reported date is the earliest date attaining that maximum; likewise for
peak daily deaths over new_deaths. -/
theorem peak_max_earliest (df : List Row) (mc md : ℚ) (dc dd : Date)
    (hsort : (afghanistan df).Pairwise (fun x y => x.date.serial < y.date.serial))
    (hmc : colMax ((afghanistan df).map Row.new_cases) = some mc)
    (hdc : idxmax Row.new_cases (afghanistan df) = some dc)
    (hmd : colMax ((afghanistan df).map Row.new_deaths) = some md)
    (hdd : idxmax Row.new_deaths (afghanistan df) = some dd) :
    ((∀ r ∈ afghanistan df, ∀ q : ℚ, r.new_cases = some q → q ≤ mc) ∧
     (∃ r ∈ afghanistan df, r.new_cases = some mc ∧ r.date = dc) ∧
     (∀ r ∈ afghanistan df, r.new_cases = some mc → dc.serial ≤ r.date.serial)) ∧
    ((∀ r ∈ afghanistan df, ∀ q : ℚ, r.new_deaths = some q → q ≤ md) ∧
     (∃ r ∈ afghanistan df, r.new_deaths = some md ∧ r.date = dd) ∧
     (∀ r ∈ afghanistan df, r.new_deaths = some md → dd.serial ≤ r.date.serial)) :=
  ⟨idxmax_spec Row.new_cases (afghanistan df) mc dc hsort hmc hdc,
   idxmax_spec Row.new_deaths (afghanistan df) md dd hsort hmd hdd⟩

/-- Sorted three-day series with a tied maximum (9 on days 2 and 3),
used to witness claim C7. -/
def tblC7 : List Row :=
  [ { baseRow with date := { year := 2021, month := 2, day := 1 }
                   new_cases := some 5
                   new_deaths := some 1 }
  , { baseRow with date := { year := 2021, month := 2, day := 2 }
                   new_cases := some 9
                   new_deaths := some 0 }
  , { baseRow with date := { year := 2021, month := 2, day := 3 }
                   new_cases := some 9
                   new_deaths := some 2 } ]

/-- Claim C7, witness: on the tied example the reported peak-cases date
is the earliest of the two maximal days. -/
theorem peak_max_earliest_witness :
    (∀ r ∈ afghanistan tblC7, ∀ q : ℚ, r.new_cases = some q → q ≤ 9) ∧
    (∀ r ∈ afghanistan tblC7, r.new_cases = some 9 →
      Date.serial { year := 2021, month := 2, day := 2 } ≤ r.date.serial) := by
  have h := peak_max_earliest tblC7 9 2
      { year := 2021, month := 2, day := 2 } { year := 2021, month := 2, day := 3 }
      (by decide) (by decide) (by decide) (by decide) (by decide)
  exact ⟨h.1.1, h.1.2.2⟩

/-- Helper: minimum / maximum facts of a natural-number list. -/
theorem nat_min?_spec {l : List Nat} {m : Nat} (h : l.min? = some m) :
    m ∈ l ∧ ∀ x ∈ l, m ≤ x :=
  (List.min?_eq_some_iff (fun a => le_refl a) (fun a b => min_choice a b)
    (fun _ _ _ => le_min_iff)).mp h

/-- Helper: maximum facts of a natural-number list. -/
theorem nat_max?_spec {l : List Nat} {m : Nat} (h : l.max? = some m) :
    m ∈ l ∧ ∀ x ∈ l, x ≤ m :=
  (List.max?_eq_some_iff (fun a => le_refl a) (fun a b => max_choice a b)
    (fun _ _ _ => max_le_iff)).mp h

/-- Helper: the minimum of a consecutive block of naturals is its start. -/
theorem min?_range' (lo m : Nat) : (List.range' lo (m + 1)).min? = some lo := by
  rw [List.range'_succ]
  apply min?_cons_of_le
  intro x hx
  have := (List.mem_range'_1.mp hx).1
  omega

/-- Helper: folding `max` over a consecutive block of naturals. -/
theorem foldl_max_range' (m : Nat) : ∀ (lo a : Nat),
    (List.range' lo (m + 1)).foldl max a = max a (lo + m) := by
  induction m with
  | zero =>
      intro lo a
      rw [List.range'_succ]
      rfl
  | succ p ih =>
      intro lo a
      rw [List.range'_succ, List.foldl_cons, ih (lo + 1) (max a lo), max_assoc]
      have h2 : max lo (lo + 1 + p) = lo + (p + 1) := by
        rw [max_eq_right (by omega)]
        omega
      rw [h2]

/-- Helper: the maximum of a consecutive block of naturals is its end. -/
theorem max?_range' (lo m : Nat) : (List.range' lo (m + 1)).max? = some (lo + m) := by
  have h : (List.range' lo (m + 1)).max?
      = some ((List.range' (lo + 1) m).foldl max lo) := by
    rw [List.range'_succ]
    rfl
  rw [h]
  cases m with
  | zero => rfl
  | succ p =>
      rw [foldl_max_range' p (lo + 1) lo]
      have h2 : max lo (lo + 1 + p) = lo + (p + 1) := by
        rw [max_eq_right (by omega)]
        omega
      rw [h2]

/-- Helper: the month bin of resample('M')'s month-end label is the bin
it labels. -/
theorem monthKey_monthEnd (k : Nat) : (monthEndDate k).monthKey = k := by
  simp only [monthEndDate, Date.monthKey, Nat.add_sub_cancel]
  omega

/-- Helper: `monthly` unfolded once the span of month bins is known. -/
theorem monthly_eq_of_minmax {s : List Row} {lo hi : Nat}
    (h1 : (monthKeys s).min? = some lo) (h2 : (monthKeys s).max? = some hi) :
    monthly s = (List.range' lo (hi - lo + 1)).map
      (fun k => aggMonth k (s.filter (fun r => decide (r.date.monthKey = k)))) := by
  unfold monthly
  rw [h1, h2]

/-- Helper: skip-NA sum of a cons cell. -/
theorem sumOpt_cons (o : Option ℚ) (l : List (Option ℚ)) :
    sumOpt (o :: l) = o.getD 0 + sumOpt l := by
  cases o <;> simp [sumOpt]

/-- Helper: a filter and its complement split a skip-NA column sum. -/
theorem sumOpt_filter_split (p : Row → Bool) (s : List Row) (f : Row → Option ℚ) :
    sumOpt ((s.filter p).map f) + sumOpt ((s.filter (fun r => !p r)).map f)
      = sumOpt (s.map f) := by
  induction s with
  | nil => simp [sumOpt]
  | cons x t ih =>
      cases hp : p x with
      | true =>
          have h1 : (x :: t).filter p = x :: t.filter p := by
            simp [List.filter_cons, hp]
          have h2 : (x :: t).filter (fun r => !p r) = t.filter (fun r => !p r) := by
            simp [List.filter_cons, hp]
          rw [h1, h2, List.map_cons, sumOpt_cons, List.map_cons, sumOpt_cons,
            add_assoc, ih]
      | false =>
          have h1 : (x :: t).filter p = t.filter p := by
            simp [List.filter_cons, hp]
          have h2 : (x :: t).filter (fun r => !p r)
              = x :: t.filter (fun r => !p r) := by
            simp [List.filter_cons, hp]
          rw [h1, h2, List.map_cons, sumOpt_cons, List.map_cons, sumOpt_cons,
            add_left_comm, ih]

/-- Helper: summing one bin per key over a covering list of distinct keys
conserves the total of the column. -/
theorem keys_partition_sum (f : Row → Option ℚ) :
    ∀ (ks : List Nat), ks.Nodup → ∀ (s : List Row),
      (∀ r ∈ s, r.date.monthKey ∈ ks) →
      (ks.map (fun k =>
          sumOpt ((s.filter (fun r => decide (r.date.monthKey = k))).map f))).sum
        = sumOpt (s.map f) := by
  intro ks
  induction ks with
  | nil =>
      intro _ s hcov
      cases s with
      | nil => rfl
      | cons r t => exact absurd (hcov r (by simp)) (by simp)
  | cons k t ih =>
      intro hnd s hcov
      have hnd' := List.nodup_cons.mp hnd
      have htail : ∀ k' ∈ t,
          s.filter (fun r => decide (r.date.monthKey = k'))
            = (s.filter (fun r => !decide (r.date.monthKey = k))).filter
                (fun r => decide (r.date.monthKey = k')) := by
        intro k' hk'
        have hkk : k' ≠ k := fun h => hnd'.1 (h ▸ hk')
        rw [List.filter_filter]
        apply List.filter_congr
        intro r _
        by_cases h : r.date.monthKey = k'
        · simp [h, hkk]
        · simp [h]
      have hcov' : ∀ r ∈ s.filter (fun r => !decide (r.date.monthKey = k)),
          r.date.monthKey ∈ t := by
        intro r hr
        have hm := List.mem_filter.mp hr
        have h1 := hcov r hm.1
        have h2 : r.date.monthKey ≠ k := by simpa using hm.2
        rcases List.mem_cons.mp h1 with h | h
        · exact absurd h h2
        · exact h
      have hmaps : t.map (fun k' =>
            sumOpt ((s.filter (fun r => decide (r.date.monthKey = k'))).map f))
          = t.map (fun k' =>
            sumOpt (((s.filter (fun r => !decide (r.date.monthKey = k))).filter
                (fun r => decide (r.date.monthKey = k'))).map f)) :=
        List.map_congr_left (fun k' hk' => by rw [htail k' hk'])
      rw [List.map_cons, List.sum_cons, hmaps, ih hnd'.2 _ hcov']
      exact sumOpt_filter_split (fun r => decide (r.date.monthKey = k)) s f

/-- Helper: re-aggregating a singleton month bin returns its row. -/
theorem aggMonth_singleton (m : MonthRow) (k : Nat) (hk : m.mkey = k) :
    aggMonth k [monthRowToRow m] = m := by
  obtain ⟨mk, nc, nd, tc, td⟩ := m
  cases hk
  cases tc <;> cases td <;>
    simp [aggMonth, monthRowToRow, sumOpt, lastOpt]

/-- Helper: filtering the rows made from distinct-key month rows by one
of their keys isolates exactly that row. -/
theorem filter_mapped_range (ks : List Nat) (hnd : ks.Nodup) (G : Nat → MonthRow)
    (hG : ∀ j ∈ ks, (G j).mkey = j) (k : Nat) (hk : k ∈ ks) :
    ((ks.map (fun j => monthRowToRow (G j))).filter
        (fun r => decide (r.date.monthKey = k))) = [monthRowToRow (G k)] := by
  induction ks with
  | nil => cases hk
  | cons a t ih =>
      have hnd' := List.nodup_cons.mp hnd
      have hkey : (monthRowToRow (G a)).date.monthKey = (G a).mkey :=
        monthKey_monthEnd (G a).mkey
      rw [List.map_cons, List.filter_cons]
      rcases List.mem_cons.mp hk with rfl | hkt
      · have hcond : ((monthRowToRow (G k)).date.monthKey = k) := by
          rw [hkey]
          exact hG k (by simp)
        rw [if_pos (by simpa using hcond)]
        have hrest : (t.map (fun j => monthRowToRow (G j))).filter
            (fun r => decide (r.date.monthKey = k)) = [] := by
          rw [List.filter_eq_nil_iff]
          intro r hr
          obtain ⟨j, hj, rfl⟩ := List.mem_map.mp hr
          have hkeyj : (monthRowToRow (G j)).date.monthKey = (G j).mkey :=
            monthKey_monthEnd (G j).mkey
          have : (monthRowToRow (G j)).date.monthKey = j := by
            rw [hkeyj]
            exact hG j (by simp [hj])
          simp only [this]
          have : j ≠ k := fun h => hnd'.1 (h ▸ hj)
          simpa using this
        rw [hrest]
      · have hak : a ≠ k := fun h => hnd'.1 (h ▸ hkt)
        have hcond : ¬ ((monthRowToRow (G a)).date.monthKey = k) := by
          rw [hkey, hG a (by simp)]
          exact hak
        rw [if_neg (by simpa using hcond)]
        exact ih hnd'.2 (fun j hj => hG j (by simp [hj])) hkt

/-- Input table whose Series skips February 2020 entirely: observations
in January and March only. -/
def tblC2 : List Row :=
  [ { baseRow with date := { year := 2020, month := 1, day := 15 }, new_cases := some 3 }
  , { baseRow with date := { year := 2020, month := 3, day := 10 }, new_cases := some 7 } ]

/-- Claim C2, counterexample: resample('M') synthesizes a bin for the
observation-free February 2020 (month key 24241) — three bins are emitted
for a Series whose rows touch only two months, the extra bin carrying
zero sums and absent cumulative totals.  This contradicts the claim's
"one group per calendar month that contains at least one Observation — no
synthesized empty months". -/
theorem monthly_synthesizes_empty_months :
    monthKeys (afghanistan tblC2) = [24240, 24242] ∧
    (monthly (afghanistan tblC2)).map MonthRow.mkey = [24240, 24241, 24242] ∧
    (monthly (afghanistan tblC2))[1]? =
      some { mkey := 24241
             new_cases := 0
             new_deaths := 0
             total_cases := none
             total_deaths := none } := by
  refine ⟨by decide, by decide, by decide⟩

/-- Claim C2 (amended): the monthly aggregation emits one bin per
calendar month of the whole span from the earliest to the latest observed
month, in strictly increasing chronological order — including synthesized
bins for months with no Observation, which carry zero sums and absent
cumulative totals.  Every observed month is emitted, and each bin holds
the sum of new cases and of new deaths over its month's rows and the last
present cumulative totals among them. -/
theorem monthly_bins (s : List Row) (lo hi : Nat)
    (h1 : (monthKeys s).min? = some lo) (h2 : (monthKeys s).max? = some hi) :
    ((monthly s).map MonthRow.mkey = List.range' lo (hi - lo + 1)) ∧
    ((monthly s).map MonthRow.mkey).Pairwise (fun a b => a < b) ∧
    (∀ r ∈ s, r.date.monthKey ∈ (monthly s).map MonthRow.mkey) ∧
    (∀ mr ∈ monthly s,
      mr.new_cases
        = sumOpt ((s.filter (fun r => decide (r.date.monthKey = mr.mkey))).map Row.new_cases) ∧
      mr.new_deaths
        = sumOpt ((s.filter (fun r => decide (r.date.monthKey = mr.mkey))).map Row.new_deaths) ∧
      mr.total_cases
        = lastOpt ((s.filter (fun r => decide (r.date.monthKey = mr.mkey))).map Row.total_cases) ∧
      mr.total_deaths
        = lastOpt ((s.filter (fun r => decide (r.date.monthKey = mr.mkey))).map Row.total_deaths)) ∧
    (∀ mr ∈ monthly s, s.filter (fun r => decide (r.date.monthKey = mr.mkey)) = [] →
      mr.new_cases = 0 ∧ mr.new_deaths = 0 ∧
      mr.total_cases = none ∧ mr.total_deaths = none) := by
  have hm := monthly_eq_of_minmax h1 h2
  have hkeys : (monthly s).map MonthRow.mkey = List.range' lo (hi - lo + 1) := by
    rw [hm, List.map_map]
    have hfun : (List.range' lo (hi - lo + 1)).map
        (MonthRow.mkey ∘ fun k =>
          aggMonth k (s.filter (fun r => decide (r.date.monthKey = k))))
        = (List.range' lo (hi - lo + 1)).map id :=
      List.map_congr_left (fun k _ => rfl)
    rw [hfun, List.map_id]
  refine ⟨hkeys, ?_, ?_, ?_, ?_⟩
  · rw [hkeys]
    exact List.pairwise_lt_range' lo (hi - lo + 1)
  · intro r hr
    rw [hkeys, List.mem_range'_1]
    have hmem : r.date.monthKey ∈ monthKeys s := List.mem_map_of_mem _ hr
    have hl := (nat_min?_spec h1).2 _ hmem
    have hu := (nat_max?_spec h2).2 _ hmem
    have hlohi : lo ≤ hi := (nat_min?_spec h1).2 hi (nat_max?_spec h2).1
    omega
  · intro mr hmr
    rw [hm] at hmr
    obtain ⟨k, hk, rfl⟩ := List.mem_map.mp hmr
    exact ⟨rfl, rfl, rfl, rfl⟩
  · intro mr hmr hempty
    rw [hm] at hmr
    obtain ⟨k, hk, rfl⟩ := List.mem_map.mp hmr
    have hg : s.filter (fun r => decide (r.date.monthKey = k)) = [] := hempty
    refine ⟨?_, ?_, ?_, ?_⟩ <;> simp [aggMonth, hg, sumOpt, lastOpt]

/-- Claim C2 (amended), witness: on the gapped two-row table the bins are
the three consecutive months 24240..24242. -/
theorem monthly_bins_witness :
    (monthly (afghanistan tblC2)).map MonthRow.mkey = List.range' 24240 3 :=
  (monthly_bins (afghanistan tblC2) 24240 24242 (by decide) (by decide)).1

/-- Claim C9: conservation and idempotence of the monthly aggregation —
the monthly new-cases sums add up to the Series total of new_cases (and
likewise for new deaths), and re-aggregating the monthly table (its rows
dated at their month-end labels) reproduces it exactly. -/
theorem monthly_conservation_idem (s : List Row) :
    ((monthly s).map MonthRow.new_cases).sum = sumOpt (s.map Row.new_cases) ∧
    ((monthly s).map MonthRow.new_deaths).sum = sumOpt (s.map Row.new_deaths) ∧
    monthly ((monthly s).map monthRowToRow) = monthly s := by
  cases e1 : (monthKeys s).min? with
  | none =>
      have hs : s = [] := by
        have h0 := List.min?_eq_none_iff.mp e1
        cases s with
        | nil => rfl
        | cons a t => simp [monthKeys] at h0
      subst hs
      exact ⟨rfl, rfl, rfl⟩
  | some lo =>
      have hex : ∃ hi, (monthKeys s).max? = some hi := by
        cases e2 : (monthKeys s).max? with
        | none =>
            have h0 := List.max?_eq_none_iff.mp e2
            rw [h0] at e1
            cases e1
        | some hi => exact ⟨hi, rfl⟩
      obtain ⟨hi, e2⟩ := hex
      have hlohi : lo ≤ hi := (nat_min?_spec e1).2 hi (nat_max?_spec e2).1
      have hnd : (List.range' lo (hi - lo + 1)).Nodup := List.nodup_range' _ _
      have hcov : ∀ r ∈ s, r.date.monthKey ∈ List.range' lo (hi - lo + 1) := by
        intro r hr
        rw [List.mem_range'_1]
        have hmem : r.date.monthKey ∈ monthKeys s := List.mem_map_of_mem _ hr
        have hl := (nat_min?_spec e1).2 _ hmem
        have hu := (nat_max?_spec e2).2 _ hmem
        omega
      have hm := monthly_eq_of_minmax e1 e2
      refine ⟨?_, ?_, ?_⟩
      · rw [hm, List.map_map]
        exact keys_partition_sum Row.new_cases _ hnd s hcov
      · rw [hm, List.map_map]
        exact keys_partition_sum Row.new_deaths _ hnd s hcov
      · have hkeys : monthKeys ((monthly s).map monthRowToRow)
            = List.range' lo (hi - lo + 1) := by
          show ((monthly s).map monthRowToRow).map (fun r => r.date.monthKey)
              = List.range' lo (hi - lo + 1)
          rw [hm, List.map_map, List.map_map]
          have hfun : (List.range' lo (hi - lo + 1)).map
              ((fun r => r.date.monthKey) ∘ monthRowToRow ∘ fun k =>
                aggMonth k (s.filter (fun r => decide (r.date.monthKey = k))))
              = (List.range' lo (hi - lo + 1)).map id :=
            List.map_congr_left (fun k _ => monthKey_monthEnd k)
          exact hfun.trans (List.map_id _)
        have e1' : (monthKeys ((monthly s).map monthRowToRow)).min? = some lo := by
          rw [hkeys]
          exact min?_range' lo (hi - lo)
        have e2' : (monthKeys ((monthly s).map monthRowToRow)).max? = some hi := by
          rw [hkeys, max?_range' lo (hi - lo)]
          congr 1
          omega
        have hfilt : ∀ k ∈ List.range' lo (hi - lo + 1),
            ((monthly s).map monthRowToRow).filter
                (fun r => decide (r.date.monthKey = k))
              = [monthRowToRow (aggMonth k
                  (s.filter (fun r => decide (r.date.monthKey = k))))] := by
          intro k hk
          rw [hm, List.map_map]
          exact filter_mapped_range (List.range' lo (hi - lo + 1)) hnd
            (fun j => aggMonth j (s.filter (fun r => decide (r.date.monthKey = j))))
            (fun j _ => rfl) k hk
        rw [monthly_eq_of_minmax e1' e2']
        conv_rhs => rw [hm]
        refine List.map_congr_left (fun k hk => ?_)
        rw [hfilt k hk]
        exact aggMonth_singleton _ k rfl
